import Mathlib

/-!
Verification of the analytics engine in
`src/server/src/services/analytics.services.js`.

The three functions of that file — `analyzeTagPerformance`, `analyzePeakTime`
and `runAllAnalysesForUser` — are embedded as Lean functions below.  The two
analyzers receive the list of eligible sessions (the store's response to the
query `{userId, status: "completed", rating: {$exists: true}}`); the
orchestrator receives an environment of fallible external collaborators
(session store, generative-text service, profile store).  Ratings are numeric
JS values, modelled as rationals.
-/

/-- An interval of a session.  Only the first interval's start time is
consulted, and only its hour of day: the code computes
`new Date(session.intervals[0].startTime).getHours()`; the stored timestamp is
modelled directly by that hour.  (Named `SessionInterval` because Mathlib
already declares `Interval`.) -/
structure SessionInterval where
  startHour : ℕ
  deriving DecidableEq

/-- An eligible session: it belongs to the target user, has status
`"completed"` and a defined `rating`.  The analyzers only consult `rating`,
`tags` and `intervals`. -/
structure Session where
  rating : ℚ
  tags : List String
  intervals : List SessionInterval
  deriving DecidableEq

/-! ## PeakTimeAnalyzer (`analyzePeakTime`, lines 37–72) -/

/-- The four fixed time blocks, the keys of the `timeBlockRatings` object. -/
inductive TimeBlock
  | morning
  | afternoon
  | evening
  | night
  deriving DecidableEq, Fintype

/-- The label string of each block, exactly as in the source object keys. -/
def TimeBlock.label : TimeBlock → String
  | .morning => "Morning (6am-12pm)"
  | .afternoon => "Afternoon (12pm-5pm)"
  | .evening => "Evening (5pm-10pm)"
  | .night => "Night (10pm-6am)"

/-- The cascading conditionals of lines 49–52: `block` starts at Night and is
reassigned by the three half-open range tests. -/
def blockOfHour (startHour : ℕ) : TimeBlock :=
  if 6 ≤ startHour ∧ startHour < 12 then .morning
  else if 12 ≤ startHour ∧ startHour < 17 then .afternoon
  else if 17 ≤ startHour ∧ startHour < 22 then .evening
  else .night

/-- Accumulator of one time block: `{ totalRating, count }`. -/
structure BlockAcc where
  totalRating : ℚ
  count : ℕ
  deriving DecidableEq

/-- The mean rating `totalRating / count` computed at line 63. -/
def BlockAcc.mean (a : BlockAcc) : ℚ := a.totalRating / (a.count : ℚ)

/-- The `timeBlockRatings` object of lines 40–45: one accumulator per block. -/
structure TimeBlockRatings where
  morning : BlockAcc
  afternoon : BlockAcc
  evening : BlockAcc
  night : BlockAcc
  deriving DecidableEq

/-- Look up the accumulator of a block. -/
def TimeBlockRatings.get (t : TimeBlockRatings) : TimeBlock → BlockAcc
  | .morning => t.morning
  | .afternoon => t.afternoon
  | .evening => t.evening
  | .night => t.night

/-- All four accumulators start at `{ totalRating: 0, count: 0 }`. -/
def initialRatings : TimeBlockRatings := ⟨⟨0, 0⟩, ⟨0, 0⟩, ⟨0, 0⟩, ⟨0, 0⟩⟩

/-- Lines 54–55: add the session's rating to the chosen block. -/
def TimeBlockRatings.bump (t : TimeBlockRatings) (b : TimeBlock) (r : ℚ) :
    TimeBlockRatings :=
  match b with
  | .morning => { t with morning := ⟨t.morning.totalRating + r, t.morning.count + 1⟩ }
  | .afternoon => { t with afternoon := ⟨t.afternoon.totalRating + r, t.afternoon.count + 1⟩ }
  | .evening => { t with evening := ⟨t.evening.totalRating + r, t.evening.count + 1⟩ }
  | .night => { t with night := ⟨t.night.totalRating + r, t.night.count + 1⟩ }

/-- The `sessions.forEach` loop of lines 47–56.  Reading
`session.intervals[0].startTime` when `intervals` is empty is a JS `TypeError`
(reading a property of `undefined`); it is modelled as `Except.error ()`,
which aborts the loop exactly as the thrown exception does. -/
def tallies : List Session → TimeBlockRatings → Except Unit TimeBlockRatings
  | [], t => .ok t
  | s :: rest, t =>
    match s.intervals with
    | [] => .error ()
    | iv :: _ => tallies rest (t.bump (blockOfHour iv.startHour) s.rating)

/-- Enumeration order of `for (const block in timeBlockRatings)`: insertion
order of the object literal. -/
def blockEnum : List TimeBlock := [.morning, .afternoon, .evening, .night]

/-- One iteration of the selection loop of lines 61–69, acting on the state
`(peakProductivityTime, maxAvg)`. -/
def selStep (st : String × ℚ) (p : String × BlockAcc) : String × ℚ :=
  if 0 < p.2.count then
    if st.2 < p.2.mean then (p.1, p.2.mean) else st
  else st

/-- The selection loop of lines 58–69: state starts at
`("Not enough data", 0)` and the blocks are visited in object order. -/
def pickPeak (t : TimeBlockRatings) : String :=
  ((blockEnum.map (fun b => (b.label, t.get b))).foldl selStep
    ("Not enough data", 0)).1

/-- `analyzePeakTime` (lines 37–72), applied to the eligible sessions the
store returns.  The result is the `peakProductivityTime` field; a thrown
`TypeError` surfaces as `Except.error ()`. -/
def analyzePeakTime (sessions : List Session) : Except Unit String :=
  (tallies sessions initialRatings).map pickPeak

instance {ε α : Type} [DecidableEq ε] [DecidableEq α] :
    DecidableEq (Except ε α) := fun x y =>
  match x, y with
  | .ok a, .ok b => decidable_of_iff (a = b) (by simp)
  | .ok _, .error _ => isFalse fun h => Except.noConfusion h
  | .error _, .ok _ => isFalse fun h => Except.noConfusion h
  | .error e, .error f => decidable_of_iff (e = f) (by simp)

theorem selStep_eq_self (st : String × ℚ) (p : String × BlockAcc)
    (h : ¬(0 < p.2.count ∧ st.2 < p.2.mean)) : selStep st p = st := by
  unfold selStep
  split_ifs with h1 h2
  · exact absurd ⟨h1, h2⟩ h
  · rfl
  · rfl

theorem foldl_selStep_snd_le (l : List (String × BlockAcc)) :
    ∀ st : String × ℚ, st.2 ≤ (l.foldl selStep st).2 := by
  induction l with
  | nil => intro st; exact le_refl _
  | cons p l ih =>
    intro st
    rw [List.foldl_cons]
    refine le_trans ?_ (ih (selStep st p))
    unfold selStep
    split_ifs with h1 h2
    · exact le_of_lt h2
    · exact le_refl _
    · exact le_refl _

theorem foldl_selStep_cases (l : List (String × BlockAcc)) :
    ∀ st : String × ℚ, l.foldl selStep st = st ∨
      ∃ p ∈ l, 0 < p.2.count ∧ l.foldl selStep st = (p.1, p.2.mean) ∧
        st.2 < p.2.mean := by
  induction l with
  | nil => intro st; exact Or.inl rfl
  | cons p l ih =>
    intro st
    rw [List.foldl_cons]
    by_cases hup : 0 < p.2.count ∧ st.2 < p.2.mean
    · have hst : selStep st p = (p.1, p.2.mean) := by
        unfold selStep
        rw [if_pos hup.1, if_pos hup.2]
      rw [hst]
      rcases ih (p.1, p.2.mean) with h | ⟨q, hq, hqc, hqe, hqlt⟩
      · exact Or.inr ⟨p, List.mem_cons_self p l, hup.1, h, hup.2⟩
      · exact Or.inr ⟨q, List.mem_cons_of_mem p hq, hqc, hqe,
          lt_trans hup.2 hqlt⟩
    · rw [selStep_eq_self st p hup]
      rcases ih st with h | ⟨q, hq, hqc, hqe, hqlt⟩
      · exact Or.inl h
      · exact Or.inr ⟨q, List.mem_cons_of_mem p hq, hqc, hqe, hqlt⟩

theorem foldl_selStep_const (l : List (String × BlockAcc)) :
    ∀ st : String × ℚ, (∀ p ∈ l, 0 < p.2.count → p.2.mean ≤ st.2) →
      l.foldl selStep st = st := by
  induction l with
  | nil => intro st _; rfl
  | cons p l ih =>
    intro st h
    rw [List.foldl_cons, selStep_eq_self st p]
    · exact ih st fun q hq => h q (List.mem_cons_of_mem p hq)
    · rintro ⟨hc, hlt⟩
      exact absurd (h p (List.mem_cons_self p l) hc) (not_le_of_lt hlt)

theorem foldl_selStep_argmax (l : List (String × BlockAcc)) :
    ∀ (st : String × ℚ) (p₀ : String × BlockAcc), p₀ ∈ l →
      0 < p₀.2.count → st.2 < p₀.2.mean →
      (∀ q ∈ l, 0 < q.2.count → q ≠ p₀ → q.2.mean < p₀.2.mean) →
      l.foldl selStep st = (p₀.1, p₀.2.mean) := by
  induction l with
  | nil => intro st p₀ hmem; exact absurd hmem (List.not_mem_nil p₀)
  | cons p l ih =>
    intro st p₀ hmem hpop hlt hmax
    by_cases hpp : p = p₀
    · subst hpp
      rw [List.foldl_cons]
      have hst : selStep st p = (p.1, p.2.mean) := by
        unfold selStep
        rw [if_pos hpop, if_pos hlt]
      rw [hst]
      apply foldl_selStep_const
      intro q hq hqc
      by_cases hqp : q = p
      · rw [hqp]
      · exact le_of_lt (hmax q (List.mem_cons_of_mem p hq) hqc hqp)
    · have hmem' : p₀ ∈ l := by
        rcases List.mem_cons.mp hmem with h | h
        · exact absurd h.symm hpp
        · exact h
      rw [List.foldl_cons]
      apply ih (selStep st p) p₀ hmem' hpop _
        (fun q hq => hmax q (List.mem_cons_of_mem p hq))
      unfold selStep
      split_ifs with h1 h2
      · exact hmax p (List.mem_cons_self p l) h1 hpp
      · exact hlt
      · exact hlt

theorem mem_blockEnum (b : TimeBlock) : b ∈ blockEnum := by
  cases b <;> decide

theorem label_injective : ∀ b b' : TimeBlock, b.label = b'.label → b = b' := by
  decide

theorem label_ne_no_data : ∀ b : TimeBlock, b.label ≠ "Not enough data" := by
  decide

theorem analyzePeakTime_eq_of_tallies {sessions : List Session}
    {t : TimeBlockRatings} (h : tallies sessions initialRatings = .ok t) :
    analyzePeakTime sessions = .ok (pickPeak t) := by
  unfold analyzePeakTime
  rw [h]
  rfl

/-! ## Claims about `analyzePeakTime` -/

/-- C1 (amended).  When the tallies of the eligible sessions are defined, the
selection loop returns the label of the block whose mean rating is strictly
maximal among populated blocks provided that maximal mean is positive; and it
returns "Not enough data" whenever every populated block has mean rating at
most 0 — in particular when every block's count is 0. -/
theorem analyzePeakTime_strict_max (sessions : List Session)
    (t : TimeBlockRatings) (h : tallies sessions initialRatings = .ok t) :
    (∀ b : TimeBlock, 0 < (t.get b).count → 0 < (t.get b).mean →
      (∀ b' : TimeBlock, b' ≠ b → 0 < (t.get b').count →
        (t.get b').mean < (t.get b).mean) →
      analyzePeakTime sessions = .ok b.label)
    ∧ ((∀ b : TimeBlock, 0 < (t.get b).count → (t.get b).mean ≤ 0) →
      analyzePeakTime sessions = .ok "Not enough data") := by
  constructor
  · intro b hpop hmean hmax
    rw [analyzePeakTime_eq_of_tallies h]
    have : pickPeak t = b.label := by
      unfold pickPeak
      rw [foldl_selStep_argmax _ _ (b.label, t.get b)
        (List.mem_map.mpr ⟨b, mem_blockEnum b, rfl⟩) hpop hmean ?_]
      intro q hq hqc hne
      obtain ⟨b', _, rfl⟩ := List.mem_map.mp hq
      have hb' : b' ≠ b := by
        intro he
        exact hne (by rw [he])
      exact hmax b' hb' hqc
    rw [this]
  · intro hall
    rw [analyzePeakTime_eq_of_tallies h]
    have : pickPeak t = "Not enough data" := by
      unfold pickPeak
      rw [foldl_selStep_const]
      intro q hq hqc
      obtain ⟨b', _, rfl⟩ := List.mem_map.mp hq
      exact hall b' hqc
    rw [this]

/-- Example for C1's witness: four sessions at hours 8, 9, 14, 20 with
ratings 5, 5, 3, 1 (the scenario of spec §8). -/
def exPeakSessions : List Session :=
  [⟨5, [], [⟨8⟩]⟩, ⟨5, [], [⟨9⟩]⟩, ⟨3, [], [⟨14⟩]⟩, ⟨1, [], [⟨20⟩]⟩]

/-- Witness for C1's amended theorem: on the §8 scenario the Morning block
(mean 5) is the strict maximum and is returned. -/
theorem analyzePeakTime_strict_max_witness :
    analyzePeakTime exPeakSessions = .ok "Morning (6am-12pm)" := by
  have h : tallies exPeakSessions initialRatings =
      .ok ⟨⟨10, 2⟩, ⟨3, 1⟩, ⟨1, 1⟩, ⟨0, 0⟩⟩ := by
    norm_num [exPeakSessions, tallies, TimeBlockRatings.bump, blockOfHour,
      initialRatings]
  refine (analyzePeakTime_strict_max exPeakSessions _ h).1 .morning
    (by norm_num [TimeBlockRatings.get])
    (by norm_num [TimeBlockRatings.get, BlockAcc.mean]) ?_
  intro b' hne hpop
  cases b' with
  | morning => exact absurd rfl hne
  | afternoon => norm_num [TimeBlockRatings.get, BlockAcc.mean]
  | evening => norm_num [TimeBlockRatings.get, BlockAcc.mean]
  | night => simp [TimeBlockRatings.get] at hpop

/-- Example refuting C1 as stated: a single eligible Morning session whose
rating is 0. -/
def exZeroRating : List Session := [⟨0, [], [⟨8⟩]⟩]

/-- C1 (counterexample).  On `exZeroRating` the Morning block is the unique
populated block — its count is 1 and every other count is 0 — so it is the
block with strictly maximal mean rating among blocks with count > 0, yet the
function returns "Not enough data" even though not every block's count is 0:
both halves of C1 fail at this input. -/
theorem analyzePeakTime_zero_mean_counterexample :
    (tallies exZeroRating initialRatings).map
        (fun t => ((t.get .morning).count, (t.get .afternoon).count,
          (t.get .evening).count, (t.get .night).count)) = .ok (1, 0, 0, 0)
    ∧ analyzePeakTime exZeroRating = .ok "Not enough data"
    ∧ "Not enough data" ≠ TimeBlock.morning.label := by
  refine ⟨?_, ?_, by decide⟩
  · norm_num [exZeroRating, tallies, TimeBlockRatings.bump, blockOfHour,
      initialRatings, TimeBlockRatings.get, Except.map]
  · norm_num [exZeroRating, analyzePeakTime, tallies, TimeBlockRatings.bump,
      blockOfHour, initialRatings, Except.map, pickPeak, blockEnum, selStep,
      TimeBlockRatings.get, BlockAcc.mean, TimeBlock.label]

/-- C2.  The running maximum starts at baseline 0 and the comparison is
strict, so a populated block with mean rating at most 0 never becomes the
peak; when such a block is the only populated one the result is
"Not enough data". -/
theorem analyzePeakTime_nonpositive_mean (sessions : List Session)
    (t : TimeBlockRatings) (h : tallies sessions initialRatings = .ok t)
    (b : TimeBlock) (hpop : 0 < (t.get b).count)
    (hle : (t.get b).mean ≤ 0) :
    analyzePeakTime sessions ≠ .ok b.label
    ∧ ((∀ b' : TimeBlock, b' ≠ b → (t.get b').count = 0) →
      analyzePeakTime sessions = .ok "Not enough data") := by
  constructor
  · rw [analyzePeakTime_eq_of_tallies h]
    intro heq
    have hpk : pickPeak t = b.label := by
      exact Except.ok.inj heq
    unfold pickPeak at hpk
    rcases foldl_selStep_cases
        (blockEnum.map (fun b => (b.label, t.get b)))
        ("Not enough data", 0) with hc | ⟨p, hp, hpc, hpe, hplt⟩
    · rw [hc] at hpk
      exact label_ne_no_data b hpk.symm
    · obtain ⟨b', _, rfl⟩ := List.mem_map.mp hp
      rw [hpe] at hpk
      have hb' : b' = b := label_injective b' b hpk
      rw [hb'] at hplt
      exact absurd hle (not_le_of_lt hplt)
  · intro honly
    rw [analyzePeakTime_eq_of_tallies h]
    have : pickPeak t = "Not enough data" := by
      unfold pickPeak
      rw [foldl_selStep_const]
      intro q hq hqc
      obtain ⟨b', _, rfl⟩ := List.mem_map.mp hq
      by_cases hbb : b' = b
      · rw [hbb]; exact hle
      · rw [honly b' hbb] at hqc
        exact absurd hqc (lt_irrefl 0)
    rw [this]

/-- Example for C2's witness: one Morning session rated 0 — the only
populated block has mean 0. -/
def exC2Sessions : List Session := [⟨0, [], [⟨8⟩]⟩]

/-- Witness for C2: with a single Morning session rated 0, Morning is
populated with mean 0, is never selected, and the result is
"Not enough data". -/
theorem analyzePeakTime_nonpositive_mean_witness :
    analyzePeakTime exC2Sessions ≠ .ok "Morning (6am-12pm)"
    ∧ analyzePeakTime exC2Sessions = .ok "Not enough data" := by
  have h : tallies exC2Sessions initialRatings =
      .ok ⟨⟨0, 1⟩, ⟨0, 0⟩, ⟨0, 0⟩, ⟨0, 0⟩⟩ := by
    norm_num [exC2Sessions, tallies, TimeBlockRatings.bump, blockOfHour,
      initialRatings]
  have hmain := analyzePeakTime_nonpositive_mean exC2Sessions _ h .morning
    (by norm_num [TimeBlockRatings.get])
    (by norm_num [TimeBlockRatings.get, BlockAcc.mean])
  refine ⟨hmain.1, hmain.2 ?_⟩
  intro b' hne
  cases b' with
  | morning => exact absurd rfl hne
  | afternoon => rfl
  | evening => rfl
  | night => rfl

/-- C7.  The boundary hours 6, 12, 17 and 22 each fall in the block whose
range begins at that hour — never the preceding block — and the hours just
below each boundary fall in the preceding block; moreover a session starting
exactly at such a boundary hour is tallied into exactly that block. -/
theorem blockOfHour_boundaries :
    blockOfHour 6 = .morning ∧ blockOfHour 12 = .afternoon ∧
    blockOfHour 17 = .evening ∧ blockOfHour 22 = .night ∧
    blockOfHour 5 = .night ∧ blockOfHour 11 = .morning ∧
    blockOfHour 16 = .afternoon ∧ blockOfHour 21 = .evening ∧
    (tallies [⟨4, [], [⟨6⟩]⟩] initialRatings).map
        (fun t => (t.get .morning).count) = .ok 1
    ∧ (tallies [⟨4, [], [⟨12⟩]⟩] initialRatings).map
        (fun t => (t.get .afternoon).count) = .ok 1
    ∧ (tallies [⟨4, [], [⟨17⟩]⟩] initialRatings).map
        (fun t => (t.get .evening).count) = .ok 1
    ∧ (tallies [⟨4, [], [⟨22⟩]⟩] initialRatings).map
        (fun t => (t.get .night).count) = .ok 1 := by
  refine ⟨by decide, by decide, by decide, by decide, by decide, by decide,
    by decide, by decide, ?_, ?_, ?_, ?_⟩ <;>
    norm_num [tallies, TimeBlockRatings.bump, blockOfHour, initialRatings,
      TimeBlockRatings.get, Except.map]

/-- C10, helper: when every session has a first interval, the forEach loop
never hits the undefined read, so the tallies are defined. -/
theorem tallies_ok_of_nonempty_intervals :
    ∀ (l : List Session) (t : TimeBlockRatings),
      (∀ s ∈ l, s.intervals ≠ []) → ∃ t', tallies l t = .ok t' := by
  intro l
  induction l with
  | nil => intro t _; exact ⟨t, rfl⟩
  | cons s rest ih =>
    intro t h
    have hs : s.intervals ≠ [] := h s (List.mem_cons_self s rest)
    match hiv : s.intervals with
    | [] => exact absurd hiv hs
    | iv :: ivs =>
      have := ih (t.bump (blockOfHour iv.startHour) s.rating)
        (fun q hq => h q (List.mem_cons_of_mem s hq))
      obtain ⟨t', ht'⟩ := this
      refine ⟨t', ?_⟩
      unfold tallies
      rw [hiv]
      exact ht'

/-- C10.  `analyzePeakTime` reads `intervals[0].startTime` without a guard:
it returns a result whenever every eligible session has at least one
interval, and on an input containing a session with an empty `intervals`
sequence the read of `undefined` raises (modelled as `Except.error`) instead
of returning a result. -/
theorem analyzePeakTime_requires_nonempty_intervals :
    (∀ sessions : List Session, (∀ s ∈ sessions, s.intervals ≠ []) →
      ∃ r, analyzePeakTime sessions = .ok r)
    ∧ analyzePeakTime [⟨4, [], []⟩] = .error () := by
  constructor
  · intro sessions h
    obtain ⟨t', ht'⟩ :=
      tallies_ok_of_nonempty_intervals sessions initialRatings h
    exact ⟨pickPeak t', analyzePeakTime_eq_of_tallies ht'⟩
  · simp [analyzePeakTime, tallies, Except.map]

/-- Example for C10's witness: a single session with one interval. -/
def exC10Sessions : List Session := [⟨5, [], [⟨9⟩]⟩]

/-- Witness for C10: on a list whose sessions all have a first interval the
analysis returns a result. -/
theorem analyzePeakTime_requires_nonempty_intervals_witness :
    ∃ r, analyzePeakTime exC10Sessions = .ok r :=
  analyzePeakTime_requires_nonempty_intervals.1 exC10Sessions (by decide)

/-! ## TagPerformanceAnalyzer (`analyzeTagPerformance`, lines 10–31) -/

/-- `$unwind: "$tags"` (line 13): one `(tag, rating)` document per tag of
each eligible session. -/
def unwindTags (sessions : List Session) : List (String × ℚ) :=
  sessions.flatMap fun s => s.tags.map fun t => (t, s.rating)

/-- One `$group` output document (lines 14–20): `_id` is the tag,
`avgRating` its `$avg` of ratings, `count` its `$sum: 1`. -/
structure TagStat where
  _id : String
  avgRating : ℚ
  count : ℕ
  deriving DecidableEq

/-- The group document of one tag: its matching `(tag, rating)` documents
give the average rating and the count. -/
def statFor (ps : List (String × ℚ)) (t : String) : TagStat :=
  let matching := ps.filter fun p => p.1 = t
  { _id := t
    avgRating := (matching.map Prod.snd).sum / (matching.length : ℚ)
    count := matching.length }

/-- Worker of `dedupFirst`: keep each key's first appearance, skipping keys
already seen. -/
def dedupFirstAux (seen : List String) : List String → List String
  | [] => []
  | t :: rest =>
    if t ∈ seen then dedupFirstAux seen rest
    else t :: dedupFirstAux (t :: seen) rest

/-- The distinct group keys.  The store does not specify the enumeration
order of `$group` output; it is modelled as the order of first appearance of
each tag among the unwound documents. -/
def dedupFirst (l : List String) : List String := dedupFirstAux [] l

/-- The `$sort: { avgRating: -1 }` ordering (line 21): descending mean
rating, no secondary key. -/
def tagOrder (a b : TagStat) : Prop := b.avgRating ≤ a.avgRating

instance : DecidableRel tagOrder := fun a b =>
  inferInstanceAs (Decidable (b.avgRating ≤ a.avgRating))

instance : IsTotal TagStat tagOrder := ⟨fun a b => le_total b.avgRating a.avgRating⟩

instance : IsTrans TagStat tagOrder := ⟨fun _ _ _ h1 h2 => le_trans h2 h1⟩

/-- The value of the aggregation `performance` (lines 11–23): group, sort by
descending average (a stable sort, ties left in group-enumeration order),
then `$match: { count: { $gt: 2 } }`. -/
def performancePipeline (sessions : List Session) : List TagStat :=
  let ps := unwindTags sessions
  let groups := (dedupFirst (ps.map Prod.fst)).map (statFor ps)
  (List.insertionSort tagOrder groups).filter fun g => 2 < g.count

/-- The record returned by `analyzeTagPerformance`. -/
structure TagPerfResult where
  topPerformingTags : List String
  improvementAreaTags : List String
  deriving DecidableEq

/-- `analyzeTagPerformance` (lines 10–31): `performance.slice(0, 3)` for the
top tags and `performance.slice(-3).map(..).reverse()` for the improvement
tags (`slice(-3)` keeps the last `min 3 n` elements). -/
def analyzeTagPerformance (sessions : List Session) : TagPerfResult :=
  let performance := performancePipeline sessions
  { topPerformingTags := (performance.take 3).map TagStat._id
    improvementAreaTags :=
      ((performance.drop (performance.length - 3)).map TagStat._id).reverse }

/-- The number of eligible `(tag, rating)` documents carrying a given tag:
the sample count of that tag. -/
def sampleCount (sessions : List Session) (t : String) : ℕ :=
  ((unwindTags sessions).filter fun p => p.1 = t).length

theorem mem_dedupFirstAux (l : List String) :
    ∀ (seen : List String) (x : String),
      x ∈ dedupFirstAux seen l ↔ x ∈ l ∧ x ∉ seen := by
  induction l with
  | nil => intro seen x; simp [dedupFirstAux]
  | cons t rest ih =>
    intro seen x
    by_cases hts : t ∈ seen
    · rw [dedupFirstAux, if_pos hts, ih seen x]
      constructor
      · rintro ⟨hr, hs⟩
        exact ⟨List.mem_cons_of_mem t hr, hs⟩
      · rintro ⟨hc, hs⟩
        rcases List.mem_cons.mp hc with rfl | hr
        · exact absurd hts hs
        · exact ⟨hr, hs⟩
    · rw [dedupFirstAux, if_neg hts]
      simp only [List.mem_cons, ih (t :: seen) x]
      by_cases hxt : x = t
      · simp [hxt, hts]
      · simp [hxt]

theorem mem_dedupFirst (l : List String) (x : String) :
    x ∈ dedupFirst l ↔ x ∈ l := by
  rw [dedupFirst, mem_dedupFirstAux]
  simp

theorem nodup_dedupFirstAux (l : List String) :
    ∀ seen : List String, (dedupFirstAux seen l).Nodup := by
  induction l with
  | nil => intro seen; simp [dedupFirstAux]
  | cons t rest ih =>
    intro seen
    by_cases hts : t ∈ seen
    · rw [dedupFirstAux, if_pos hts]
      exact ih seen
    · rw [dedupFirstAux, if_neg hts, List.nodup_cons]
      refine ⟨?_, ih (t :: seen)⟩
      intro hmem
      exact ((mem_dedupFirstAux rest (t :: seen) t).mp hmem).2
        (List.mem_cons_self t seen)

theorem nodup_dedupFirst (l : List String) : (dedupFirst l).Nodup :=
  nodup_dedupFirstAux l []

theorem performancePipeline_mem {sessions : List Session} {g : TagStat}
    (hg : g ∈ performancePipeline sessions) :
    2 < g.count ∧ g = statFor (unwindTags sessions) g._id := by
  unfold performancePipeline at hg
  have h1 := List.mem_filter.mp hg
  have hcount : 2 < g.count := by simpa using h1.2
  have h2 : g ∈ (dedupFirst ((unwindTags sessions).map Prod.fst)).map
      (statFor (unwindTags sessions)) :=
    (List.mem_insertionSort tagOrder).mp h1.1
  obtain ⟨t', _, rfl⟩ := List.mem_map.mp h2
  exact ⟨hcount, rfl⟩

/-! ## Claims about `analyzeTagPerformance` -/

/-- C5.  A tag appearing in either output list of `analyzeTagPerformance`
has sample count strictly greater than 2: the `$match: {count: {$gt: 2}}`
stage removes every tag with 2 or fewer samples before slicing. -/
theorem analyzeTagPerformance_sample_floor (sessions : List Session)
    (t : String)
    (h : t ∈ (analyzeTagPerformance sessions).topPerformingTags ∨
      t ∈ (analyzeTagPerformance sessions).improvementAreaTags) :
    2 < sampleCount sessions t := by
  have hex : ∃ g ∈ performancePipeline sessions, g._id = t := by
    rcases h with h | h
    · simp only [analyzeTagPerformance] at h
      obtain ⟨g, hg, hid⟩ := List.mem_map.mp h
      exact ⟨g, List.mem_of_mem_take hg, hid⟩
    · simp only [analyzeTagPerformance] at h
      rw [List.mem_reverse] at h
      obtain ⟨g, hg, hid⟩ := List.mem_map.mp h
      exact ⟨g, List.mem_of_mem_drop hg, hid⟩
  obtain ⟨g, hg, hid⟩ := hex
  obtain ⟨hc, hgs⟩ := performancePipeline_mem hg
  have hcc : g.count = sampleCount sessions t := by
    rw [hgs, hid]
    rfl
  rw [← hcc]
  exact hc

/-- Example for C5's witness: the §8 scenario — "coding" three times with
ratings 5, 4, 5 and "meetings" once with rating 2. -/
def exC5Sessions : List Session :=
  [⟨5, ["coding"], [⟨9⟩]⟩, ⟨4, ["coding"], [⟨9⟩]⟩, ⟨5, ["coding"], [⟨9⟩]⟩,
   ⟨2, ["meetings"], [⟨9⟩]⟩]

/-- Witness for C5: "coding" is ranked (it is in `topPerformingTags`) and
its sample count 3 exceeds the floor. -/
theorem analyzeTagPerformance_sample_floor_witness :
    2 < sampleCount exC5Sessions "coding" := by
  refine analyzeTagPerformance_sample_floor exC5Sessions "coding" (Or.inl ?_)
  simp +decide [exC5Sessions, analyzeTagPerformance, performancePipeline,
    unwindTags, dedupFirst, dedupFirstAux, statFor, List.insertionSort, List.orderedInsert,
    tagOrder, List.filter_cons, List.filter_nil, List.sum_cons, List.sum_nil]
  norm_num

theorem performancePipeline_sorted (sessions : List Session) :
    List.Sorted tagOrder (performancePipeline sessions) := by
  unfold performancePipeline
  exact List.Pairwise.filter _ (List.sorted_insertionSort tagOrder _)

theorem sorted_head_max {a : TagStat} {t : List TagStat}
    (hs : List.Sorted tagOrder (a :: t)) :
    ∀ g ∈ a :: t, g.avgRating ≤ a.avgRating := by
  intro g hg
  rcases List.mem_cons.mp hg with rfl | hg'
  · exact le_refl _
  · exact (List.pairwise_cons.mp hs).1 g hg'

theorem sorted_last_min (l : List TagStat) :
    List.Sorted tagOrder l → ∀ gl, l.getLast? = some gl →
      ∀ g ∈ l, gl.avgRating ≤ g.avgRating := by
  induction l with
  | nil => intro _ gl h; simp at h
  | cons a t ih =>
    intro hs gl h g hg
    cases t with
    | nil =>
      have hga : g = a := by simpa using hg
      have hla : gl = a := by simpa using h.symm
      rw [hga, hla]
    | cons b t' =>
      rw [List.getLast?_cons_cons] at h
      have htail : List.Sorted tagOrder (b :: t') := (List.pairwise_cons.mp hs).2
      rcases List.mem_cons.mp hg with rfl | hg'
      · obtain ⟨hne, hgl⟩ := List.mem_getLast?_eq_getLast
          (show gl ∈ (b :: t').getLast? from h.symm ▸ rfl)
        have hglmem : gl ∈ b :: t' := by
          rw [hgl]
          exact List.getLast_mem hne
        exact (List.pairwise_cons.mp hs).1 gl hglmem
      · exact ih htail gl h g hg'

theorem getLast?_drop_of_lt (l : List TagStat) (k : ℕ) (hk : k < l.length) :
    (l.drop k).getLast? = l.getLast? := by
  conv_rhs => rw [← List.take_append_drop k l]
  rw [List.getLast?_append_of_ne_nil]
  intro hnil
  rw [List.drop_eq_nil_iff] at hnil
  omega

/-- C6.  The output lists of `analyzeTagPerformance` against the sorted,
qualifying pipeline `performance`: `topPerformingTags` is the first
`min 3 n` tag names, `improvementAreaTags` is the last `min 3 n` tag names
reversed, both are empty when `n = 0`, `topPerformingTags[0]` names the
qualifying tag of highest mean rating and `improvementAreaTags[0]` the one
of lowest mean rating. -/
theorem analyzeTagPerformance_slices (sessions : List Session) :
    List.Sorted tagOrder (performancePipeline sessions)
    ∧ (analyzeTagPerformance sessions).topPerformingTags =
      ((performancePipeline sessions).take 3).map TagStat._id
    ∧ (analyzeTagPerformance sessions).improvementAreaTags =
      (((performancePipeline sessions).drop
        ((performancePipeline sessions).length - 3)).map TagStat._id).reverse
    ∧ (analyzeTagPerformance sessions).topPerformingTags.length =
      min 3 (performancePipeline sessions).length
    ∧ (analyzeTagPerformance sessions).improvementAreaTags.length =
      min 3 (performancePipeline sessions).length
    ∧ (analyzeTagPerformance sessions).topPerformingTags.head? =
      (performancePipeline sessions).head?.map TagStat._id
    ∧ (analyzeTagPerformance sessions).improvementAreaTags.head? =
      (performancePipeline sessions).getLast?.map TagStat._id
    ∧ (∀ gt, (performancePipeline sessions).head? = some gt →
        ∀ g ∈ performancePipeline sessions, g.avgRating ≤ gt.avgRating)
    ∧ (∀ gl, (performancePipeline sessions).getLast? = some gl →
        ∀ g ∈ performancePipeline sessions, gl.avgRating ≤ g.avgRating) := by
  refine ⟨performancePipeline_sorted sessions, rfl, rfl, ?_, ?_, ?_, ?_, ?_, ?_⟩
  · simp [analyzeTagPerformance]
  · simp only [analyzeTagPerformance, List.length_reverse, List.length_map,
      List.length_drop]
    omega
  · simp only [analyzeTagPerformance, List.head?_map, List.head?_take]
    norm_num
  · simp only [analyzeTagPerformance, List.head?_reverse, List.getLast?_map]
    rcases Nat.eq_zero_or_pos (performancePipeline sessions).length with hz | hp
    · rw [List.length_eq_zero] at hz
      rw [hz]
      simp
    · rw [getLast?_drop_of_lt _ _ (by omega)]
  · intro gt hgt g hg
    have hs := performancePipeline_sorted sessions
    cases hpp : performancePipeline sessions with
    | nil => rw [hpp] at hgt; simp at hgt
    | cons a t =>
      rw [hpp] at hgt hg hs
      have : a = gt := by simpa using hgt
      rw [← this]
      exact sorted_head_max hs g hg
  · intro gl hgl g hg
    exact sorted_last_min (performancePipeline sessions)
      (performancePipeline_sorted sessions) gl hgl g hg

/-- Example for C6's witness: "coding" three times with ratings 5, 4, 5 and
"writing" three times with rating 2 — both qualify, coding mean 14/3,
writing mean 2. -/
def exC6Sessions : List Session :=
  [⟨5, ["coding"], [⟨9⟩]⟩, ⟨4, ["coding"], [⟨9⟩]⟩, ⟨5, ["coding"], [⟨9⟩]⟩,
   ⟨2, ["writing"], [⟨9⟩]⟩, ⟨2, ["writing"], [⟨9⟩]⟩, ⟨2, ["writing"], [⟨9⟩]⟩]

/-- Witness for C6: on `exC6Sessions` the head of the pipeline is the
"coding" group and the last element the "writing" group, so the lowest mean
(writing, 2) is bounded by the highest (coding, 14/3). -/
theorem analyzeTagPerformance_slices_witness :
    (⟨"writing", 2, 3⟩ : TagStat).avgRating ≤
      (⟨"coding", 14/3, 3⟩ : TagStat).avgRating := by
  have hpp : performancePipeline exC6Sessions =
      [⟨"coding", 14/3, 3⟩, ⟨"writing", 2, 3⟩] := by
    simp +decide [exC6Sessions, performancePipeline, unwindTags, dedupFirst,
      dedupFirstAux, statFor, List.insertionSort, List.orderedInsert, tagOrder,
      List.filter_cons, List.filter_nil, List.sum_cons, List.sum_nil]
    norm_num
  exact (analyzeTagPerformance_slices exC6Sessions).2.2.2.2.2.2.2.1
    ⟨"coding", 14/3, 3⟩ (by rw [hpp]; rfl)
    ⟨"writing", 2, 3⟩ (by rw [hpp]; simp)

theorem unwindTags_cons (s : Session) (l : List Session) :
    unwindTags (s :: l) =
      (s.tags.map fun t => (t, s.rating)) ++ unwindTags l := by
  simp [unwindTags]

theorem unwindTags_perm {l₁ l₂ : List Session} (hp : l₁.Perm l₂) :
    (unwindTags l₁).Perm (unwindTags l₂) := by
  induction hp with
  | nil => exact List.Perm.refl _
  | cons x _ ih =>
    rw [unwindTags_cons, unwindTags_cons]
    exact ih.append_left _
  | swap x y l =>
    rw [unwindTags_cons, unwindTags_cons, unwindTags_cons, unwindTags_cons,
      ← List.append_assoc, ← List.append_assoc]
    exact List.perm_append_comm.append_right _
  | trans _ _ ih1 ih2 => exact ih1.trans ih2

theorem statFor_perm {ps₁ ps₂ : List (String × ℚ)} (hp : ps₁.Perm ps₂)
    (t : String) : statFor ps₁ t = statFor ps₂ t := by
  have hf : (ps₁.filter fun p => p.1 = t).Perm
      (ps₂.filter fun p => p.1 = t) := hp.filter _
  have h1 : (ps₁.filter fun p => p.1 = t).length =
      (ps₂.filter fun p => p.1 = t).length := hf.length_eq
  have h2 : ((ps₁.filter fun p => p.1 = t).map Prod.snd).sum =
      ((ps₂.filter fun p => p.1 = t).map Prod.snd).sum := (hf.map _).sum_eq
  simp [statFor, h1, h2]

theorem sorted_perm_eq_of_distinct (f₁ : List TagStat) :
    ∀ f₂ : List TagStat, f₁.Perm f₂ → List.Sorted tagOrder f₁ →
      List.Sorted tagOrder f₂ →
      (∀ a ∈ f₁, ∀ b ∈ f₁, a ≠ b → a.avgRating ≠ b.avgRating) → f₁ = f₂ := by
  induction f₁ with
  | nil =>
    intro f₂ hp _ _ _
    exact (hp.symm.eq_nil).symm
  | cons a t ih =>
    intro f₂ hp hs₁ hs₂ hd
    cases f₂ with
    | nil => exact absurd hp.eq_nil (by simp)
    | cons b t₂ =>
      have hbmem : b ∈ a :: t := hp.mem_iff.mpr (List.mem_cons_self b t₂)
      have hamem : a ∈ b :: t₂ := hp.mem_iff.mp (List.mem_cons_self a t)
      have hab : a.avgRating = b.avgRating :=
        le_antisymm (sorted_head_max hs₂ a hamem) (sorted_head_max hs₁ b hbmem)
      have hab' : a = b := by
        by_contra hne
        exact hd a (List.mem_cons_self a t) b hbmem hne hab
      subst hab'
      have htail : t = t₂ :=
        ih t₂ hp.cons_inv (List.pairwise_cons.mp hs₁).2
          (List.pairwise_cons.mp hs₂).2
          fun x hx y hy => hd x (List.mem_cons_of_mem a hx) y
            (List.mem_cons_of_mem a hy)
      rw [htail]

/-- Example for C8's counterexample: tags "a" and "b", three sessions each,
all rated 3 — an exact tie of mean ratings. -/
def exTieSessions : List Session :=
  [⟨3, ["a"], [⟨9⟩]⟩, ⟨3, ["a"], [⟨9⟩]⟩, ⟨3, ["a"], [⟨9⟩]⟩,
   ⟨3, ["b"], [⟨9⟩]⟩, ⟨3, ["b"], [⟨9⟩]⟩, ⟨3, ["b"], [⟨9⟩]⟩]

/-- C8 (counterexample).  The pipeline sorts by `avgRating` alone (no
secondary key), so the order of exactly tied tags follows the store's
unspecified group-enumeration order: the same multiset of eligible sessions,
enumerated in two different orders, yields different
`topPerformingTags` — the two runs are not identical. -/
theorem analyzeTagPerformance_tie_counterexample :
    exTieSessions.Perm exTieSessions.reverse
    ∧ analyzeTagPerformance exTieSessions ≠
      analyzeTagPerformance exTieSessions.reverse := by
  constructor
  · exact (List.reverse_perm exTieSessions).symm
  · have hA : (analyzeTagPerformance exTieSessions).topPerformingTags =
        ["a", "b"] := by
      simp +decide [exTieSessions, analyzeTagPerformance, performancePipeline,
        unwindTags, dedupFirst, dedupFirstAux, statFor, List.insertionSort,
        List.orderedInsert, tagOrder, List.filter_cons, List.filter_nil,
        List.sum_cons, List.sum_nil]
    have hB : (analyzeTagPerformance exTieSessions.reverse).topPerformingTags =
        ["b", "a"] := by
      simp +decide [exTieSessions, analyzeTagPerformance, performancePipeline,
        unwindTags, dedupFirst, dedupFirstAux, statFor, List.insertionSort,
        List.orderedInsert, tagOrder, List.filter_cons, List.filter_nil,
        List.sum_cons, List.sum_nil, List.reverse_cons]
    intro h
    rw [h, hB] at hA
    exact absurd hA (by decide)

/-- C8 (amended).  Without ties the output is a function of the multiset of
eligible sessions: if all qualifying tags have pairwise distinct mean
ratings, any two enumeration orders of the same sessions produce identical
`topPerformingTags` and `improvementAreaTags`. -/
theorem analyzeTagPerformance_perm_of_distinct (l₁ l₂ : List Session)
    (hp : l₁.Perm l₂)
    (hd : ∀ a ∈ performancePipeline l₁, ∀ b ∈ performancePipeline l₁,
      a ≠ b → a.avgRating ≠ b.avgRating) :
    analyzeTagPerformance l₁ = analyzeTagPerformance l₂ := by
  have hps := unwindTags_perm hp
  have hstat : statFor (unwindTags l₁) = statFor (unwindTags l₂) :=
    funext (statFor_perm hps)
  have htags : ((unwindTags l₁).map Prod.fst).Perm
      ((unwindTags l₂).map Prod.fst) := hps.map _
  have hdedup : (dedupFirst ((unwindTags l₁).map Prod.fst)).Perm
      (dedupFirst ((unwindTags l₂).map Prod.fst)) := by
    rw [List.perm_ext_iff_of_nodup (nodup_dedupFirst _) (nodup_dedupFirst _)]
    intro a
    rw [mem_dedupFirst, mem_dedupFirst]
    exact htags.mem_iff
  have hgroups : ((dedupFirst ((unwindTags l₁).map Prod.fst)).map
      (statFor (unwindTags l₁))).Perm
      ((dedupFirst ((unwindTags l₂).map Prod.fst)).map
      (statFor (unwindTags l₂))) := by
    rw [← hstat]
    exact hdedup.map _
  have hfp : (performancePipeline l₁).Perm (performancePipeline l₂) := by
    unfold performancePipeline
    exact ((List.perm_insertionSort tagOrder _).trans
      (hgroups.trans (List.perm_insertionSort tagOrder _).symm)).filter _
  have hpp : performancePipeline l₁ = performancePipeline l₂ :=
    sorted_perm_eq_of_distinct _ _ hfp (performancePipeline_sorted l₁)
      (performancePipeline_sorted l₂) hd
  unfold analyzeTagPerformance
  rw [hpp]

/-- Example for C8's witness: "coding" (mean 14/3) and "writing" (mean 2),
three samples each — distinct mean ratings. -/
def exDistinctSessions : List Session :=
  [⟨5, ["coding"], [⟨9⟩]⟩, ⟨4, ["coding"], [⟨9⟩]⟩, ⟨5, ["coding"], [⟨9⟩]⟩,
   ⟨2, ["writing"], [⟨9⟩]⟩, ⟨2, ["writing"], [⟨9⟩]⟩, ⟨2, ["writing"], [⟨9⟩]⟩]

/-- Witness for C8's amended theorem: with distinct mean ratings the two
enumeration orders give identical results. -/
theorem analyzeTagPerformance_perm_of_distinct_witness :
    analyzeTagPerformance exDistinctSessions =
      analyzeTagPerformance exDistinctSessions.reverse := by
  have hpp : performancePipeline exDistinctSessions =
      [⟨"coding", 14/3, 3⟩, ⟨"writing", 2, 3⟩] := by
    simp +decide [exDistinctSessions, performancePipeline, unwindTags,
      dedupFirst, dedupFirstAux, statFor, List.insertionSort, List.orderedInsert, tagOrder,
      List.filter_cons, List.filter_nil, List.sum_cons, List.sum_nil]
    norm_num
  refine analyzeTagPerformance_perm_of_distinct exDistinctSessions _
    ((List.reverse_perm exDistinctSessions).symm) ?_
  rw [hpp]
  intro a ha b hb hne
  rcases List.mem_cons.mp ha with rfl | ha' <;>
    rcases List.mem_cons.mp hb with rfl | hb'
  · exact absurd rfl hne
  · have hb'' : b = ⟨"writing", 2, 3⟩ := by simpa using hb'
    rw [hb'']
    norm_num
  · have ha'' : a = ⟨"writing", 2, 3⟩ := by simpa using ha'
    rw [ha'']
    norm_num
  · have ha'' : a = ⟨"writing", 2, 3⟩ := by simpa using ha'
    have hb'' : b = ⟨"writing", 2, 3⟩ := by simpa using hb'
    rw [ha'', hb''] at hne
    exact absurd rfl hne

/-! ## InsightOrchestrator (`runAllAnalysesForUser`, lines 78–118) -/

/-- The `aiInsights` fields written by the orchestrator (the four dotted
`$set` paths of lines 105–112). -/
structure AiInsights where
  topPerformingTags : List String
  improvementAreaTags : List String
  peakProductivityTime : String
  habitAnalysis : String
  deriving DecidableEq

/-- A user profile document: the `aiInsights` sub-document plus everything
else the profile stores, abstracted as `rest` (the orchestrator's update
names only the four `aiInsights.*` paths, so the remaining profile state is
opaque to it). -/
structure UserDoc (α : Type) where
  aiInsights : AiInsights
  rest : α
  deriving DecidableEq

/-- The external collaborators of one run, each fallible: the session store
answering the aggregation (`Session.aggregate`) and the find
(`Session.find`), the generative-text service (`model.generateContent` +
`response.text()`), and the profile store's acknowledgement of
`User.findByIdAndUpdate`.  A JS `Error` is modelled as its message
string. -/
structure Env where
  aggregateSessions : Except String (List Session)
  findSessions : Except String (List Session)
  generateContent : String → Except String String
  profileUpdate : Except String Unit

/-- `topPerformingTags.join(', ') || 'None yet'` (lines 92–93): the JS `||`
falls back exactly when the joined string is empty. -/
def joinOrNone (l : List String) : String :=
  let j := String.intercalate ", " l
  if j = "" then "None yet" else j

/-- The prompt template of lines 88–97, with the three values substituted. -/
def buildPrompt (top improve : List String) (peak : String) : String :=
  "\n            You are a friendly and encouraging productivity coach. Based on the following user data, provide a short, actionable insight (2-3 sentences).\n            \n            Data:\n            - User\x27s best performing task types (highest rated): "
    ++ joinOrNone top
    ++ "\n            - Task types the user finds challenging (lowest rated): "
    ++ joinOrNone improve
    ++ "\n            - The user\x27s most productive time of day (highest rated sessions): "
    ++ peak
    ++ "\n\n            Analyze this data and give the user one key insight. For example, if they do well on \x27Coding\x27 in the morning, encourage that. If they struggle with \x27Meetings\x27 in the afternoon, suggest a different approach. Be positive and helpful.\n        "

/-- The data assembled by a successful run before the profile write. -/
structure AnalysisData where
  top : List String
  improve : List String
  peak : String
  habit : String
  deriving DecidableEq

/-- The message of the `TypeError` thrown inside `analyzePeakTime` when a
session has no interval. -/
def typeErrorMessage : String :=
  "TypeError: Cannot read properties of undefined (reading \x27startTime\x27)"

/-- Steps 1–2 of the orchestrator (lines 81–102): both analyzer calls and
the generative-text call, every failure propagating as `Except.error`. -/
def analysisPhase (env : Env) : Except String AnalysisData := do
  let sTag ← env.aggregateSessions
  let r := analyzeTagPerformance sTag
  let sPeak ← env.findSessions
  let peak ← match analyzePeakTime sPeak with
    | .ok p => Except.ok p
    | .error _ => Except.error typeErrorMessage
  let habit ← env.generateContent
    (buildPrompt r.topPerformingTags r.improvementAreaTags peak)
  Except.ok ⟨r.topPerformingTags, r.improvementAreaTags, peak, habit⟩

/-- The `$set` of lines 105–112: replace exactly the four `aiInsights.*`
fields, keep the rest of the document. -/
def applyUpdate {α : Type} (user : UserDoc α) (d : AnalysisData) : UserDoc α :=
  { user with aiInsights := ⟨d.top, d.improve, d.peak, d.habit⟩ }

/-- The body of the orchestrator's `try` block: analysis phase, then the
awaited profile write (which changes the store only when it succeeds). -/
def innerRun (env : Env) : Except String AnalysisData := do
  let d ← analysisPhase env
  let _ ← env.profileUpdate
  Except.ok d

/-- The `console.log` message of line 114. -/
def successLog (userId : String) : String :=
  "Successfully ran GEN AI analysis for user " ++ userId

/-- The `console.error` message of line 116 (the error appended after the
user context). -/
def errorLog (userId e : String) : String :=
  "Error running GEN AI analysis for user " ++ userId ++ ": " ++ e

/-- `runAllAnalysesForUser` (lines 78–118), as a state transformer on the
stored profile of the user: the `try/catch` makes it total — it returns the
new profile state together with the console output, never an exception. -/
def runAllAnalysesForUser {α : Type} (env : Env) (userId : String)
    (user : UserDoc α) : UserDoc α × List String :=
  match innerRun env with
  | .ok d => (applyUpdate user d, [successLog userId])
  | .error e => (user, [errorLog userId e])

/-! ## Claims about `runAllAnalysesForUser` -/

/-- C3.  Whatever step fails — data access, the text-generation call, or the
profile write — the orchestrator returns normally (its type is total, no
exception escapes), leaves the profile as it was, and logs the error with
the user identifier. -/
theorem runAllAnalysesForUser_swallows {α : Type} (env : Env)
    (userId : String) (user : UserDoc α) (e : String)
    (h : innerRun env = .error e) :
    runAllAnalysesForUser env userId user =
      (user, ["Error running GEN AI analysis for user " ++ userId ++ ": "
        ++ e]) := by
  unfold runAllAnalysesForUser
  rw [h]
  rfl

/-- Example environment for C3's witness: the session store is down. -/
def envDbDown : Env :=
  ⟨.error "db down", .error "db down", fun _ => .ok "insight",
   .ok ()⟩

/-- Example profile for the orchestrator witnesses. -/
def exUser : UserDoc ℕ := ⟨⟨["x"], ["y"], "z", "w"⟩, 37⟩

/-- Witness for C3: with the store down the run returns the unchanged
profile and the error log carrying the user identifier. -/
theorem runAllAnalysesForUser_swallows_witness :
    runAllAnalysesForUser envDbDown "u1" exUser =
      (exUser, ["Error running GEN AI analysis for user u1: db down"]) :=
  runAllAnalysesForUser_swallows envDbDown "u1" exUser "db down" rfl

/-- C4.  If any step before the profile write fails — data access in either
analyzer, the in-analyzer `TypeError`, or the text-generation call — the
stored profile is exactly the prior one. -/
theorem runAllAnalysesForUser_preserves_on_failure {α : Type} (env : Env)
    (userId : String) (user : UserDoc α) (e : String)
    (h : analysisPhase env = .error e) :
    (runAllAnalysesForUser env userId user).1 = user := by
  have hi : innerRun env = .error e := by
    unfold innerRun
    rw [h]
    rfl
  unfold runAllAnalysesForUser
  rw [hi]

/-- Example environment for C4's witness: the store answers but the
text-generation collaborator throws. -/
def envLlmDown : Env :=
  ⟨.ok [], .ok [], fun _ => .error "LLM down", .ok ()⟩

/-- Witness for C4: when the collaborator call throws, the persisted
profile is untouched. -/
theorem runAllAnalysesForUser_preserves_on_failure_witness :
    (runAllAnalysesForUser envLlmDown "u2" exUser).1 = exUser :=
  runAllAnalysesForUser_preserves_on_failure envLlmDown "u2" exUser
    "LLM down" rfl

/-- C9.  A successful run sets exactly the four `aiInsights` fields from the
analysis data: the rest of the profile is unchanged, and the written values
do not depend on the prior profile (it is never read). -/
theorem runAllAnalysesForUser_frame {α : Type} (env : Env) (userId : String)
    (u₁ u₂ : UserDoc α) (d : AnalysisData) (h : innerRun env = .ok d) :
    (runAllAnalysesForUser env userId u₁).1.rest = u₁.rest
    ∧ (runAllAnalysesForUser env userId u₁).1.aiInsights =
      ⟨d.top, d.improve, d.peak, d.habit⟩
    ∧ (runAllAnalysesForUser env userId u₁).1.aiInsights =
      (runAllAnalysesForUser env userId u₂).1.aiInsights := by
  unfold runAllAnalysesForUser
  rw [h]
  exact ⟨rfl, rfl, rfl⟩

/-- Example environment for C9's witness: every collaborator succeeds (no
eligible sessions, insight text "Keep it up!"). -/
def envAllOk : Env :=
  ⟨.ok [], .ok [], fun _ => .ok "Keep it up!", .ok ()⟩

/-- A second example profile, to exhibit that the written `aiInsights` do
not depend on the prior profile. -/
def exUserOther : UserDoc ℕ := ⟨⟨[], [], "", ""⟩, 0⟩

/-- Witness for C9: on a successful run over `envAllOk` the rest of the
profile is preserved, the four fields carry the analysis result, and two
different prior profiles receive the same `aiInsights`. -/
theorem runAllAnalysesForUser_frame_witness :
    (runAllAnalysesForUser envAllOk "u3" exUser).1.rest = exUser.rest
    ∧ (runAllAnalysesForUser envAllOk "u3" exUser).1.aiInsights =
      ⟨[], [], "Not enough data", "Keep it up!"⟩
    ∧ (runAllAnalysesForUser envAllOk "u3" exUser).1.aiInsights =
      (runAllAnalysesForUser envAllOk "u3" exUserOther).1.aiInsights := by
  have hin : innerRun envAllOk =
      .ok ⟨[], [], "Not enough data", "Keep it up!"⟩ := rfl
  exact runAllAnalysesForUser_frame envAllOk "u3" exUser exUserOther
    ⟨[], [], "Not enough data", "Keep it up!"⟩ hin
